import Mathlib

/-!
# Verification of the Sink telemetry pipeline (`app/utils/access-log` slice)

Shallow embedding of the access/create telemetry subsystem of the Sink URL
shortener: the schema registry (`blobsMap`, `doublesMap`, `logsMap`), the
positional encoders/decoders (`logs2blobs`, `blobs2logs`, `logs2doubles`,
`doubles2logs`), request-context extraction (`getRequestLogContext`), record
assembly (`createRequestLogs`) and the two event loggers (`useAccessLog`,
`useCreateLog`).

JavaScript records are modelled as insertion-ordered association lists of
`(fieldName, value)` pairs (`Rec`), since object-key insertion order is
observable in JavaScript and one of the verified properties is exactly that
the encoders do not depend on it.  JavaScript values flowing through the
record are `undefined`, strings, or numbers (`JSVal`); numbers are modelled
as `Rat` (the numeric slots are only moved around, never computed with, so
none of the floating-point-specific behaviour is exercised).

External collaborators (the `Intl.DisplayNames` region-name lookup, the
`getFlag` glyph helper from `@/utils/flag` which is not part of this slice,
the `ufo`/`intl-parse-accept-language`/`ua-parser-js` libraries, and the JS
`Number()` string coercion) are kept abstract as fields of a `Platform`
record; theorems constrain them only by the contracts the specification
states for them.
-/

/-- A JavaScript value stored in a log record field: `undefined`, a string,
or a number.  Numbers are modelled as `Rat`; the pipeline never computes
with them, it only defaults and copies them. -/
inductive JSVal where
  | undef : JSVal
  | str : String → JSVal
  | num : Rat → JSVal
deriving DecidableEq, Repr

/-- A JavaScript object used as a log record: an insertion-ordered
association list from property names to values.  A property that was never
assigned is simply absent from the list. -/
abbrev Rec := List (String × JSVal)

/-- JavaScript property read `r[k]`: the value of the first entry named `k`
(a well-formed object has at most one). -/
def lookupField (r : Rec) (k : String) : Option JSVal :=
  (r.find? (fun p => p.1 = k)).map Prod.snd

/-- JavaScript property write `r[k] = v`: overwrite in place when the key
exists (JS objects keep the original insertion position), append otherwise. -/
def objSet (r : Rec) (k : String) (v : JSVal) : Rec :=
  if r.any (fun p => p.1 = k) then
    r.map (fun p => if p.1 = k then (k, v) else p)
  else
    r ++ [(k, v)]

/-- `a || b` on a JS string-or-undefined with a string default: the empty
string is falsy, so it also falls through to the default. -/
def jsOr (a : Option String) (b : String) : String :=
  match a with
  | some s => if s = "" then b else s
  | none => b

/-- `a || b` where both operands are JS string-or-undefined values. -/
def jsOrOpt (a : Option String) (b : Option String) : Option String :=
  match a with
  | some s => if s = "" then b else some s
  | none => b

/-! ## Schema registry (source: `blobsMap`, `doublesMap`, `logsMap`, `toBlobNumber`) -/

/-- Read a list of decimal digit characters as a number (helper for
`toBlobNumber`; an empty list reads as 0, matching `+''`). -/
def digitsToNat : List Char → Nat → Nat
  | [], acc => acc
  | c :: cs, acc => digitsToNat cs (acc * 10 + (c.toNat - '0'.toNat))

/-- `toBlobNumber(blob)`: `+blob.replace(/\D/g, '')` — strip every
non-digit character and read the rest as a decimal number (`+''` is 0). -/
def toBlobNumber (blob : String) : Nat :=
  digitsToNat (blob.toList.filter Char.isDigit) 0

/-- The text-channel schema table: slot identifier to field name, in
declaration order (source `blobsMap`). -/
def blobsMap : List (String × String) :=
  [("blob1", "slug"),
   ("blob2", "url"),
   ("blob3", "ua"),
   ("blob4", "ip"),
   ("blob5", "referer"),
   ("blob6", "country"),
   ("blob7", "region"),
   ("blob8", "city"),
   ("blob9", "timezone"),
   ("blob10", "language"),
   ("blob11", "os"),
   ("blob12", "browser"),
   ("blob13", "browserType"),
   ("blob14", "device"),
   ("blob15", "deviceType"),
   ("blob16", "COLO"),
   ("blob17", "eventType")]

/-- The numeric-channel schema table (source `doublesMap`). -/
def doublesMap : List (String × String) :=
  [("double1", "latitude"),
   ("double2", "longitude")]

/-- Property read `m[k]` on a schema table object. -/
def mapGet (m : List (String × String)) (k : String) : Option String :=
  (m.find? (fun p => p.1 = k)).map Prod.snd

/-- The reverse mapping built by the source's `logsMap`:
`Object.fromEntries` of every `(fieldName, slotId)` pair from both channels. -/
def logsMap : List (String × String) :=
  blobsMap.map (fun kv => (kv.2, kv.1)) ++ doublesMap.map (fun kv => (kv.2, kv.1))

/-- The text-channel field names, in declaration order. -/
def blobFields : List String := blobsMap.map Prod.snd

/-- The numeric-channel field names, in declaration order. -/
def doubleFields : List String := doublesMap.map Prod.snd

/-! ## Encoders and decoders -/

/-- Insert into a list sorted ascending by the comparator (the step of the
stable ascending sort performed by `Array.prototype.sort` with the
comparator `(a, b) => toBlobNumber(a) - toBlobNumber(b)`). -/
def insertSorted (le : String → String → Bool) (x : String) : List String → List String
  | [] => [x]
  | y :: ys => if le x y then x :: y :: ys else y :: insertSorted le x ys

/-- Stable ascending sort of the slot keys by the comparator. -/
def sortKeys (le : String → String → Bool) (l : List String) : List String :=
  l.foldr (insertSorted le) []

/-- `String(v || '')` where the TypeScript type of `v` is
`string | undefined` (every `LogsMap` blob field): a present non-empty
string passes through, `undefined` and the (falsy) empty string give `''`.
A numeric value cannot reach a blob field under the source's `LogsMap`
type, so it is mapped to the out-of-domain default. -/
def jsOrEmptyStr (v : Option JSVal) : String :=
  match v with
  | some (JSVal.str s) => s
  | _ => ""

/-- `Number(v || 0)` where the TypeScript type of `v` is
`number | undefined` (every `LogsMap` double field): a present number
passes through (`0 || 0` is still `0`), `undefined` gives `0`.  A string
value cannot reach a double field under the source's `LogsMap` type. -/
def jsOrZero (v : Option JSVal) : Rat :=
  match v with
  | some (JSVal.num q) => q
  | _ => 0

/-- `logs2blobs(logs)`: the slot keys of `blobsMap`, sorted ascending by
their embedded ordinal, each mapped to `String(logs[blobsMap[key]] || '')`. -/
def logs2blobs (logs : Rec) : List String :=
  (sortKeys (fun a b => toBlobNumber a ≤ toBlobNumber b) (blobsMap.map Prod.fst)).map
    (fun key => jsOrEmptyStr ((mapGet blobsMap key).bind (fun f => lookupField logs f)))

/-- `logs2doubles(logs)`: the slot keys of `doublesMap`, sorted ascending by
their embedded ordinal, each mapped to `Number(logs[doublesMap[key]] || 0)`. -/
def logs2doubles (logs : Rec) : List Rat :=
  (sortKeys (fun a b => toBlobNumber a ≤ toBlobNumber b) (doublesMap.map Prod.fst)).map
    (fun key => jsOrZero ((mapGet doublesMap key).bind (fun f => lookupField logs f)))

/-- The `reduce` of `blobs2logs`: walk the input values in step with the
declaration-order key list; each value is assigned to
`blobsMap[logsList[i]]`.  Past the end of the key list, `logsList[i]` is
`undefined`, `blobsMap[undefined]` is `undefined`, and the JS property
write coerces the `undefined` key to the string `"undefined"`. -/
def blobs2logsAux : List String → List String → Rec → Rec
  | _, [], logs => logs
  | ks, b :: bs, logs =>
    blobs2logsAux ks.tail bs
      (objSet logs (((ks.head?).bind (mapGet blobsMap)).getD "undefined") (JSVal.str b))

/-- `blobs2logs(blobs)`: positional decode of the text channel, zipping the
declaration-order key list of `blobsMap` against the input sequence. -/
def blobs2logs (blobs : List String) : Rec :=
  blobs2logsAux (blobsMap.map Prod.fst) blobs []

/-- The `reduce` of `doubles2logs`, symmetric to `blobs2logsAux`. -/
def doubles2logsAux : List String → List Rat → Rec → Rec
  | _, [], logs => logs
  | ks, d :: ds, logs =>
    doubles2logsAux ks.tail ds
      (objSet logs (((ks.head?).bind (mapGet doublesMap)).getD "undefined") (JSVal.num d))

/-- `doubles2logs(doubles)`: positional decode of the numeric channel. -/
def doubles2logs (doubles : List Rat) : Rec :=
  doubles2logsAux (doublesMap.map Prod.fst) doubles []

/-! ## Evaluation lemmas for the encoders and decoders -/

/-- The explicit ordinal sort of the text-channel slot keys coincides with
the declaration order of the schema table. -/
theorem sortedBlobKeys_eq :
    sortKeys (fun a b => toBlobNumber a ≤ toBlobNumber b) (blobsMap.map Prod.fst)
      = blobsMap.map Prod.fst := by decide

/-- The explicit ordinal sort of the numeric-channel slot keys coincides
with the declaration order of the schema table. -/
theorem sortedDoubleKeys_eq :
    sortKeys (fun a b => toBlobNumber a ≤ toBlobNumber b) (doublesMap.map Prod.fst)
      = doublesMap.map Prod.fst := by decide

/-- `logs2blobs` unfolded: one string per schema slot, in ordinal order,
each depending on the record only through the slot's field. -/
theorem logs2blobs_eq (r : Rec) :
    logs2blobs r =
      [jsOrEmptyStr (lookupField r "slug"),
       jsOrEmptyStr (lookupField r "url"),
       jsOrEmptyStr (lookupField r "ua"),
       jsOrEmptyStr (lookupField r "ip"),
       jsOrEmptyStr (lookupField r "referer"),
       jsOrEmptyStr (lookupField r "country"),
       jsOrEmptyStr (lookupField r "region"),
       jsOrEmptyStr (lookupField r "city"),
       jsOrEmptyStr (lookupField r "timezone"),
       jsOrEmptyStr (lookupField r "language"),
       jsOrEmptyStr (lookupField r "os"),
       jsOrEmptyStr (lookupField r "browser"),
       jsOrEmptyStr (lookupField r "browserType"),
       jsOrEmptyStr (lookupField r "device"),
       jsOrEmptyStr (lookupField r "deviceType"),
       jsOrEmptyStr (lookupField r "COLO"),
       jsOrEmptyStr (lookupField r "eventType")] := by
  simp only [logs2blobs, sortedBlobKeys_eq]
  rfl

/-- `logs2doubles` unfolded, symmetric to `logs2blobs_eq`. -/
theorem logs2doubles_eq (r : Rec) :
    logs2doubles r =
      [jsOrZero (lookupField r "latitude"), jsOrZero (lookupField r "longitude")] := by
  simp only [logs2doubles, sortedDoubleKeys_eq]
  rfl

/-- Assigning a key that is not yet present appends the property. -/
theorem objSet_fresh (r : Rec) (k : String) (v : JSVal)
    (h : r.any (fun p => p.1 = k) = false) :
    objSet r k v = r ++ [(k, v)] := by
  simp [objSet, h]

/-- The `(key, value)` pairs that the `blobs2logs` reduce assigns, in
assignment order. -/
def decodedBlobPairs : List String → List String → Rec
  | _, [] => []
  | ks, b :: bs =>
    ((((ks.head?).bind (mapGet blobsMap)).getD "undefined", JSVal.str b))
      :: decodedBlobPairs ks.tail bs

/-- The `(key, value)` pairs that the `doubles2logs` reduce assigns. -/
def decodedDoublePairs : List String → List Rat → Rec
  | _, [] => []
  | ks, d :: ds =>
    ((((ks.head?).bind (mapGet doublesMap)).getD "undefined", JSVal.num d))
      :: decodedDoublePairs ks.tail ds

/-- When every key the reduce will assign is fresh for the accumulator and
the assigned keys are pairwise distinct, the reduce appends its pairs. -/
theorem blobs2logsAux_append :
    ∀ (bs ks : List String) (logs : Rec),
      (∀ k ∈ (decodedBlobPairs ks bs).map Prod.fst, logs.any (fun p => p.1 = k) = false) →
      ((decodedBlobPairs ks bs).map Prod.fst).Nodup →
      blobs2logsAux ks bs logs = logs ++ decodedBlobPairs ks bs
  | [], ks, logs, _, _ => by
    simp [blobs2logsAux, decodedBlobPairs]
  | b :: bs, ks, logs, hfresh, hnodup => by
    simp only [decodedBlobPairs, List.map_cons, List.nodup_cons] at hnodup
    have h0 : logs.any (fun p => p.1 = (((ks.head?).bind (mapGet blobsMap)).getD "undefined"))
        = false :=
      hfresh _ (by simp [decodedBlobPairs])
    have hstep : blobs2logsAux ks (b :: bs) logs
        = blobs2logsAux ks.tail bs
            (objSet logs (((ks.head?).bind (mapGet blobsMap)).getD "undefined") (JSVal.str b)) :=
      rfl
    rw [hstep, objSet_fresh _ _ _ h0,
      blobs2logsAux_append bs ks.tail (logs ++ [(_, JSVal.str b)]) ?_ hnodup.2]
    · simp [decodedBlobPairs]
    · intro k hk
      have hk0 : k ∈ (decodedBlobPairs ks (b :: bs)).map Prod.fst := by
        simp only [decodedBlobPairs, List.map_cons, List.mem_cons]
        exact Or.inr hk
      have hne : ¬ (((ks.head?).bind (mapGet blobsMap)).getD "undefined") = k :=
        fun h => hnodup.1 (h ▸ hk)
      simp [List.any_append, hfresh k hk0, hne]

/-- Numeric-channel analogue of `blobs2logsAux_append`. -/
theorem doubles2logsAux_append :
    ∀ (ds : List Rat) (ks : List String) (logs : Rec),
      (∀ k ∈ (decodedDoublePairs ks ds).map Prod.fst, logs.any (fun p => p.1 = k) = false) →
      ((decodedDoublePairs ks ds).map Prod.fst).Nodup →
      doubles2logsAux ks ds logs = logs ++ decodedDoublePairs ks ds
  | [], ks, logs, _, _ => by
    simp [doubles2logsAux, decodedDoublePairs]
  | d :: ds, ks, logs, hfresh, hnodup => by
    simp only [decodedDoublePairs, List.map_cons, List.nodup_cons] at hnodup
    have h0 : logs.any (fun p => p.1 = (((ks.head?).bind (mapGet doublesMap)).getD "undefined"))
        = false :=
      hfresh _ (by simp [decodedDoublePairs])
    have hstep : doubles2logsAux ks (d :: ds) logs
        = doubles2logsAux ks.tail ds
            (objSet logs (((ks.head?).bind (mapGet doublesMap)).getD "undefined") (JSVal.num d)) :=
      rfl
    rw [hstep, objSet_fresh _ _ _ h0,
      doubles2logsAux_append ds ks.tail (logs ++ [(_, JSVal.num d)]) ?_ hnodup.2]
    · simp [decodedDoublePairs]
    · intro k hk
      have hk0 : k ∈ (decodedDoublePairs ks (d :: ds)).map Prod.fst := by
        simp only [decodedDoublePairs, List.map_cons, List.mem_cons]
        exact Or.inr hk
      have hne : ¬ (((ks.head?).bind (mapGet doublesMap)).getD "undefined") = k :=
        fun h => hnodup.1 (h ▸ hk)
      simp [List.any_append, hfresh k hk0, hne]

/-- Decoding a full 17-element text sequence assigns the schema's field
names in declaration order to the positional values. -/
theorem blobs2logs_seventeen
    (b1 b2 b3 b4 b5 b6 b7 b8 b9 b10 b11 b12 b13 b14 b15 b16 b17 : String) :
    blobs2logs [b1, b2, b3, b4, b5, b6, b7, b8, b9, b10, b11, b12, b13, b14, b15, b16, b17] =
      [("slug", JSVal.str b1), ("url", JSVal.str b2), ("ua", JSVal.str b3),
       ("ip", JSVal.str b4), ("referer", JSVal.str b5), ("country", JSVal.str b6),
       ("region", JSVal.str b7), ("city", JSVal.str b8), ("timezone", JSVal.str b9),
       ("language", JSVal.str b10), ("os", JSVal.str b11), ("browser", JSVal.str b12),
       ("browserType", JSVal.str b13), ("device", JSVal.str b14), ("deviceType", JSVal.str b15),
       ("COLO", JSVal.str b16), ("eventType", JSVal.str b17)] := by
  have hkeys : (decodedBlobPairs (blobsMap.map Prod.fst)
      [b1, b2, b3, b4, b5, b6, b7, b8, b9, b10, b11, b12, b13, b14, b15, b16, b17]).map Prod.fst
      = blobFields := rfl
  rw [blobs2logs, blobs2logsAux_append _ _ [] (fun k _ => rfl) (by rw [hkeys]; decide)]
  rfl

/-- Decoding a full 2-element numeric sequence assigns the numeric field
names in declaration order. -/
theorem doubles2logs_two (d1 d2 : Rat) :
    doubles2logs [d1, d2] = [("latitude", JSVal.num d1), ("longitude", JSVal.num d2)] := by
  have hkeys : (decodedDoublePairs (doublesMap.map Prod.fst) [d1, d2]).map Prod.fst
      = doubleFields := rfl
  rw [doubles2logs, doubles2logsAux_append _ _ [] (fun k _ => rfl) (by rw [hkeys]; decide)]
  rfl

/-- Round trip of the text channel, per field: decoding the encoded
sequence binds every schema field name to the encoder's slot string. -/
theorem lookup_roundtrip_blob (r : Rec) (k : String) (hk : k ∈ blobFields) :
    lookupField (blobs2logs (logs2blobs r)) k
      = some (JSVal.str (jsOrEmptyStr (lookupField r k))) := by
  rw [logs2blobs_eq, blobs2logs_seventeen]
  fin_cases hk <;> rfl

/-- Round trip of the numeric channel, per field. -/
theorem lookup_roundtrip_double (r : Rec) (k : String) (hk : k ∈ doubleFields) :
    lookupField (doubles2logs (logs2doubles r)) k
      = some (JSVal.num (jsOrZero (lookupField r k))) := by
  rw [logs2doubles_eq, doubles2logs_two]
  fin_cases hk <;> rfl

/-- Property lookup in a duplicate-free record is invariant under
permuting the record's entries (insertion order). -/
theorem lookupField_perm {r1 r2 : Rec} (hp : r1.Perm r2) :
    (r1.map Prod.fst).Nodup → ∀ k, lookupField r1 k = lookupField r2 k := by
  induction hp with
  | nil => intro _ k; rfl
  | cons x hp ih =>
    intro hnd k
    simp only [List.map_cons, List.nodup_cons] at hnd
    by_cases hx : x.1 = k
    · simp [lookupField, List.find?_cons_of_pos, hx]
    · simp only [lookupField, List.find?_cons_of_neg, hx, decide_eq_true_eq,
        not_false_eq_true]
      exact ih hnd.2 k
  | swap x y l =>
    intro hnd k
    simp only [List.map_cons, List.nodup_cons, List.mem_cons] at hnd
    by_cases hy : y.1 = k <;> by_cases hx : x.1 = k
    · exact absurd (hy.trans hx.symm) (fun h => hnd.1 (Or.inl h))
    · simp [lookupField, List.find?_cons_of_pos, List.find?_cons_of_neg, hx, hy]
    · simp [lookupField, List.find?_cons_of_pos, List.find?_cons_of_neg, hx, hy]
    · simp [lookupField, List.find?_cons_of_neg, hx, hy]
  | trans h1 h2 ih1 ih2 =>
    intro hnd k
    have hnd2 := ((h1.map Prod.fst).nodup_iff).mp hnd
    exact (ih1 hnd k).trans (ih2 hnd2 k)

/-- **C1.** For every record whose fields are drawn from the schema,
decoding the encoded text sequence (`blobs2logs` of `logs2blobs`)
reproduces every originally-present text field's value, with absent fields
restored as the empty string; and decoding the encoded numeric sequence
(`doubles2logs` of `logs2doubles`) reproduces every originally-present
numeric field's value, with absent fields restored as 0. -/
theorem decode_encode_roundtrip (r : Rec) :
    (∀ k s, k ∈ blobFields → lookupField r k = some (JSVal.str s) →
        lookupField (blobs2logs (logs2blobs r)) k = some (JSVal.str s))
  ∧ (∀ k, k ∈ blobFields → lookupField r k = none →
        lookupField (blobs2logs (logs2blobs r)) k = some (JSVal.str ""))
  ∧ (∀ k q, k ∈ doubleFields → lookupField r k = some (JSVal.num q) →
        lookupField (doubles2logs (logs2doubles r)) k = some (JSVal.num q))
  ∧ (∀ k, k ∈ doubleFields → lookupField r k = none →
        lookupField (doubles2logs (logs2doubles r)) k = some (JSVal.num 0)) := by
  refine ⟨?_, ?_, ?_, ?_⟩
  · intro k s hk hv; rw [lookup_roundtrip_blob r k hk, hv]; rfl
  · intro k hk hv; rw [lookup_roundtrip_blob r k hk, hv]; rfl
  · intro k q hk hv; rw [lookup_roundtrip_double r k hk, hv]; rfl
  · intro k hk hv; rw [lookup_roundtrip_double r k hk, hv]; rfl

/-- A record carrying one text and one numeric field, for exercising the
round trip on concrete data. -/
def roundtripRec : Rec :=
  [("slug", JSVal.str "a"), ("latitude", JSVal.num (3 / 2 : Rat))]

theorem decode_encode_roundtrip_witness :
    lookupField (blobs2logs (logs2blobs roundtripRec)) "slug" = some (JSVal.str "a")
  ∧ lookupField (blobs2logs (logs2blobs roundtripRec)) "url" = some (JSVal.str "")
  ∧ lookupField (doubles2logs (logs2doubles roundtripRec)) "latitude"
      = some (JSVal.num (3 / 2 : Rat))
  ∧ lookupField (doubles2logs (logs2doubles roundtripRec)) "longitude" = some (JSVal.num 0) :=
  ⟨(decode_encode_roundtrip roundtripRec).1 "slug" "a" (by decide) rfl,
   (decode_encode_roundtrip roundtripRec).2.1 "url" (by decide) rfl,
   (decode_encode_roundtrip roundtripRec).2.2.1 "latitude" (3 / 2 : Rat) (by decide) rfl,
   (decode_encode_roundtrip roundtripRec).2.2.2 "longitude" (by decide) rfl⟩

/-- **C2.** The encoded positional sequences are determined solely by the
slot ordinals of the schema, not by record insertion order: two
duplicate-free records that are permutations of one another (same fields,
same values, any insertion order) encode to identical sequences on both
channels. -/
theorem encode_insertion_order_independent (r1 r2 : Rec)
    (hnd : (r1.map Prod.fst).Nodup) (hp : r1.Perm r2) :
    logs2blobs r1 = logs2blobs r2 ∧ logs2doubles r1 = logs2doubles r2 := by
  have hl : ∀ k, lookupField r1 k = lookupField r2 k := lookupField_perm hp hnd
  constructor
  · rw [logs2blobs_eq, logs2blobs_eq]; simp only [hl]
  · rw [logs2doubles_eq, logs2doubles_eq]; simp only [hl]

/-- A three-field record and a rotation of it. -/
def permRecA : Rec :=
  [("slug", JSVal.str "a"), ("url", JSVal.str "b"), ("latitude", JSVal.num 1)]

/-- `permRecA` with its fields inserted in a different order. -/
def permRecB : Rec :=
  [("latitude", JSVal.num 1), ("slug", JSVal.str "a"), ("url", JSVal.str "b")]

theorem encode_insertion_order_independent_witness :
    logs2blobs permRecA = logs2blobs permRecB
  ∧ logs2doubles permRecA = logs2doubles permRecB :=
  encode_insertion_order_independent permRecA permRecB (by decide) (by decide)

/-- **C9.** The encoders' output lengths are fixed by the schema tables:
for every record, `logs2blobs` yields exactly 17 strings and
`logs2doubles` exactly 2 numbers, whichever fields the record populates. -/
theorem encoders_fixed_length (r : Rec) :
    (logs2blobs r).length = 17 ∧ (logs2doubles r).length = 2 := by
  rw [logs2blobs_eq, logs2doubles_eq]
  exact ⟨rfl, rfl⟩

/-- **C7.** Each schema table is a bijection between field names and slot
identifiers: per channel, slot keys are pairwise distinct and field names
are pairwise distinct, and the slot-to-field read (`mapGet` on
`blobsMap`/`doublesMap`) and the field-to-slot read (`mapGet` on the
reverse table `logsMap`) are mutually inverse. -/
theorem schema_bijection :
    ((blobsMap.map Prod.fst).Nodup ∧ (blobsMap.map Prod.snd).Nodup)
  ∧ ((doublesMap.map Prod.fst).Nodup ∧ (doublesMap.map Prod.snd).Nodup)
  ∧ (∀ kv ∈ blobsMap, mapGet blobsMap kv.1 = some kv.2 ∧ mapGet logsMap kv.2 = some kv.1)
  ∧ (∀ kv ∈ doublesMap, mapGet doublesMap kv.1 = some kv.2 ∧ mapGet logsMap kv.2 = some kv.1) := by
  decide

/-! ## Request context extraction and record assembly -/

/-- The slice of `UAParser#getResult()` the pipeline reads: OS name,
browser name and classification, device model and classification.  Any of
them can be `undefined` for unmatched input. -/
structure UAInfo where
  osName : Option String
  browserName : Option String
  browserType : Option String
  deviceModel : Option String
  deviceType : Option String
deriving DecidableEq

/-- The `botManagement` bundle of the platform connection properties. -/
structure BotManagement where
  verifiedBot : Bool
deriving DecidableEq

/-- The slice of `IncomingRequestCfProperties` the pipeline reads.  All
geolocation fields are optional; latitude/longitude are strings there. -/
structure CfProps where
  country : Option String
  region : Option String
  city : Option String
  timezone : Option String
  colo : Option String
  latitude : Option String
  longitude : Option String
  botManagement : Option BotManagement
deriving DecidableEq

/-- `RequestLogContext`: the normalized per-request context produced by
`getRequestLogContext`. -/
structure RequestLogContext where
  cf : Option CfProps
  ip : Option String
  language : Option String
  referer : Option String
  uaInfo : UAInfo
  userAgent : String
deriving DecidableEq

/-- `LogLinkContext`: link metadata supplied by the link-resolution
collaborator. -/
structure LogLinkContext where
  id : Option String
  slug : Option String
  url : Option String
deriving DecidableEq

/-- The inbound `H3Event` as the pipeline observes it: a header table, the
transport-derived request IP (`getRequestIP` with `xForwardedFor`), the
platform connection properties, and the link attached to the event
context. -/
structure H3Event where
  headers : String → Option String
  requestIP : Option String
  cf : Option CfProps
  link : Option LogLinkContext

/-- Modelled from the spec: the external collaborators of the extractor
and assembler, which are not part of this source slice — the
locale-aware region-name lookup (`Intl.DisplayNames(['en'], {type:
'region'}).of`), the flag-glyph helper (`getFlag` from `@/utils/flag`,
absent from the slice), the JS `Number()` coercion on strings, the URL
host parse (`parseURL(...).host` from `ufo`), the Accept-Language ranked
parse (`intl-parse-accept-language`), and the user-agent signature
classifier (`ua-parser-js` with the extension families).  Each is kept
abstract; theorems assume only the contracts the specification states. -/
structure Platform where
  regionNamesOf : String → String
  getFlag : Option String → String
  jsNumber : String → Rat
  parseURLHost : Option String → Option String
  parseAcceptLanguage : String → List String
  uaParse : String → UAInfo

/-- `getRequestLogContext(event)`: multi-source fallback extraction of the
normalized request context. -/
def getRequestLogContext (p : Platform) (e : H3Event) : RequestLogContext :=
  { cf := e.cf
    ip := jsOrOpt (jsOrOpt (e.headers "cf-connecting-ip") (e.headers "x-real-ip")) e.requestIP
    language := (p.parseAcceptLanguage (jsOr (e.headers "accept-language") "")).head?
    referer := p.parseURLHost (e.headers "referer")
    uaInfo := p.uaParse (jsOr (e.headers "user-agent") "")
    userAgent := jsOr (e.headers "user-agent") "" }

/-- `regionNames.of(request.cf?.country || 'WD')`: the resolved country
display name, with the worldwide sentinel substituted when the country
code is absent (or the falsy empty string). -/
def countryName (p : Platform) (cf : Option CfProps) : String :=
  p.regionNamesOf (jsOr (cf.bind CfProps.country) "WD")

/-- `[...].filter(Boolean)` over JS string-or-undefined components: drop
`undefined` and the falsy empty string. -/
def filterBoolean (parts : List (Option String)) : List String :=
  (parts.filterMap id).filter (fun s => ¬ s = "")

/-- `Array.prototype.join(',')`. -/
def joinComma : List String → String
  | [] => ""
  | [s] => s
  | s :: rest => s ++ "," ++ joinComma rest

/-- A present string becomes a string property, an absent one an
`undefined` property (the object literal lists the key either way). -/
def optVal (o : Option String) : JSVal :=
  match o with
  | some s => JSVal.str s
  | none => JSVal.undef

/-- `Number(a || b || 0)` where `a`, `b` are JS string-or-undefined: an all-falsy
chain gives 0, otherwise the JS numeric coercion of the first
truthy string. -/
def jsOrNumStr (p : Platform) (x : Option String) : Rat :=
  match x with
  | some s => if s = "" then 0 else p.jsNumber s
  | none => 0

/-- `createRequestLogs(event, link, request, eventType)`: the assembled
event record, in the object literal's insertion order. -/
def createRequestLogs (p : Platform) (e : H3Event) (link : LogLinkContext)
    (request : RequestLogContext) (eventType : String) : Rec :=
  [("url", optVal link.url),
   ("slug", optVal link.slug),
   ("ua", JSVal.str request.userAgent),
   ("ip", optVal request.ip),
   ("referer", optVal request.referer),
   ("country", optVal (request.cf.bind CfProps.country)),
   ("region", JSVal.str (p.getFlag (request.cf.bind CfProps.country) ++ " " ++
      joinComma (filterBoolean [request.cf.bind CfProps.region, some (countryName p request.cf)]))),
   ("city", JSVal.str (p.getFlag (request.cf.bind CfProps.country) ++ " " ++
      joinComma (filterBoolean [request.cf.bind CfProps.city, some (countryName p request.cf)]))),
   ("timezone", optVal (request.cf.bind CfProps.timezone)),
   ("language", optVal request.language),
   ("os", optVal request.uaInfo.osName),
   ("browser", optVal request.uaInfo.browserName),
   ("browserType", optVal request.uaInfo.browserType),
   ("device", optVal request.uaInfo.deviceModel),
   ("deviceType", optVal request.uaInfo.deviceType),
   ("COLO", optVal (request.cf.bind CfProps.colo)),
   ("eventType", JSVal.str eventType),
   ("latitude", JSVal.num (jsOrNumStr p
      (jsOrOpt (request.cf.bind CfProps.latitude) (e.headers "cf-iplatitude")))),
   ("longitude", JSVal.num (jsOrNumStr p
      (jsOrOpt (request.cf.bind CfProps.longitude) (e.headers "cf-iplongitude"))))]

/-! ## Event loggers -/

/-- `String.prototype.toLowerCase()`, character by character (the browser
names compared against are ASCII, where this agrees with JS). -/
def lowerStr (s : String) : String :=
  String.mk (s.toList.map Char.toLower)

/-- The bot verdict computed in `useAccessLog`:
`cf?.botManagement?.verifiedBot || ['crawler','fetcher'].includes(browser
type || '') || ['spider','bot'].includes(browser name lowercased || '')`. -/
def isBot (ctx : RequestLogContext) : Bool :=
  (((ctx.cf.bind CfProps.botManagement).map BotManagement.verifiedBot).getD false)
  || (["crawler", "fetcher"] : List String).contains (ctx.uaInfo.browserType.getD "")
  || (["spider", "bot"] : List String).contains
      ((ctx.uaInfo.browserName.map lowerStr).getD "")

/-- The runtime switches the loggers consult: the
`disableBotAccessLog` runtime-config flag and whether
`process.env.NODE_ENV === 'production'`. -/
structure RuntimeEnv where
  disableBotAccessLog : Bool
  production : Bool
deriving DecidableEq

/-- One `ANALYTICS.writeDataPoint` call. -/
structure SinkWrite where
  indexes : List (Option String)
  blobs : List String
  doubles : List Rat
deriving DecidableEq

/-- The observable effect of one logger invocation: the sink writes issued
and the number of local console diagnostics emitted. -/
structure LogEffect where
  writes : List SinkWrite
  consoleTraces : Nat
deriving DecidableEq

/-- `useAccessLog(event)`: bot suppression, then a sink write in
production or a local diagnostic trace otherwise. -/
def useAccessLog (p : Platform) (env : RuntimeEnv) (e : H3Event) : LogEffect :=
  let requestLogContext := getRequestLogContext p e
  let link := e.link.getD ⟨none, none, none⟩
  if isBot requestLogContext && env.disableBotAccessLog then
    { writes := [], consoleTraces := 1 }
  else
    let accessLogs := createRequestLogs p e link requestLogContext "access"
    if env.production then
      { writes := [{ indexes := [link.id], blobs := logs2blobs accessLogs,
                     doubles := logs2doubles accessLogs }],
        consoleTraces := 0 }
    else
      { writes := [], consoleTraces := 1 }

/-- `useCreateLog(event, link)`: always assemble and dispatch, with no bot
check. -/
def useCreateLog (p : Platform) (env : RuntimeEnv) (e : H3Event) (link : LogLinkContext) :
    LogEffect :=
  let requestLogContext := getRequestLogContext p e
  let createLogs := createRequestLogs p e link requestLogContext "create"
  if env.production then
    { writes := [{ indexes := [link.id], blobs := logs2blobs createLogs,
                   doubles := logs2doubles createLogs }],
      consoleTraces := 0 }
  else
    { writes := [], consoleTraces := 1 }

/-! ## Theorems about extraction, assembly and the loggers -/

/-- **C6.** The country display name is resolved by locale-aware
region-name lookup on the 2-letter country code, substituting the
sentinel "WD" when the code is absent (so the lookup never fails): with
no country code the name is the worldwide resolution, with a present
non-empty code it is that code's resolution, and with "US" (given the
locale data's resolution of "US") it is "United States". -/
theorem country_name_fallback (p : Platform) (cf : Option CfProps) :
    (cf.bind CfProps.country = none → countryName p cf = p.regionNamesOf "WD")
  ∧ (∀ c, cf.bind CfProps.country = some c → ¬ c = "" →
      countryName p cf = p.regionNamesOf c)
  ∧ (cf.bind CfProps.country = some "US" → p.regionNamesOf "US" = "United States" →
      countryName p cf = "United States") := by
  refine ⟨?_, ?_, ?_⟩
  · intro h; rw [countryName, h]; rfl
  · intro c h hc; rw [countryName, h]; simp [jsOr, hc]
  · intro h hus; rw [countryName, h]; simpa [jsOr] using hus

/-- A concrete stand-in for the `Intl` region-name data, fixing the two
resolutions the spec names. -/
def regionNamesW : String → String :=
  fun c => if c = "US" then "United States" else if c = "JP" then "Japan" else "Worldwide"

/-- A concrete platform instantiation for witnesses. -/
def platformW : Platform :=
  { regionNamesOf := regionNamesW
    getFlag := fun _ => "F"
    jsNumber := fun _ => 0
    parseURLHost := fun _ => none
    parseAcceptLanguage := fun _ => []
    uaParse := fun _ => ⟨none, none, none, none, none⟩ }

/-- Connection properties carrying only `country = "US"`. -/
def cfUS : CfProps := ⟨some "US", none, none, none, none, none, none, none⟩

theorem country_name_fallback_witness :
    countryName platformW none = platformW.regionNamesOf "WD"
  ∧ countryName platformW (some cfUS) = "United States" :=
  ⟨(country_name_fallback platformW none).1 rfl,
   (country_name_fallback platformW (some cfUS)).2.2 rfl (by decide)⟩

/-- **C5.** For a request context with country "JP", region "Tokyo" and
city absent, the assembled `region` slot is the JP flag glyph, a space,
and "Tokyo,Japan", and the `city` slot is the JP flag glyph, a space, and
"Japan": the composite slots comma-join only the non-empty components. -/
theorem composite_region_city (p : Platform) (e : H3Event) (link : LogLinkContext)
    (request : RequestLogContext) (cf : CfProps) (et : String)
    (hcf : request.cf = some cf) (hc : cf.country = some "JP")
    (hr : cf.region = some "Tokyo") (hci : cf.city = none)
    (hJP : p.regionNamesOf "JP" = "Japan") :
    lookupField (createRequestLogs p e link request et) "region"
      = some (JSVal.str (p.getFlag (some "JP") ++ " " ++ "Tokyo,Japan"))
  ∧ lookupField (createRequestLogs p e link request et) "city"
      = some (JSVal.str (p.getFlag (some "JP") ++ " " ++ "Japan")) := by
  have hcn : countryName p request.cf = "Japan" := by
    rw [countryName, hcf]
    show p.regionNamesOf (jsOr cf.country "WD") = "Japan"
    rw [hc]
    simpa [jsOr] using hJP
  have hvr : lookupField (createRequestLogs p e link request et) "region"
      = some (JSVal.str (p.getFlag (request.cf.bind CfProps.country) ++ " " ++
          joinComma (filterBoolean
            [request.cf.bind CfProps.region, some (countryName p request.cf)]))) := rfl
  have hvc : lookupField (createRequestLogs p e link request et) "city"
      = some (JSVal.str (p.getFlag (request.cf.bind CfProps.country) ++ " " ++
          joinComma (filterBoolean
            [request.cf.bind CfProps.city, some (countryName p request.cf)]))) := rfl
  constructor
  · rw [hvr, hcn, hcf]
    show some (JSVal.str (p.getFlag (cf.country) ++ " " ++
        joinComma (filterBoolean [cf.region, some "Japan"]))) = _
    rw [hc, hr]
    rfl
  · rw [hvc, hcn, hcf]
    show some (JSVal.str (p.getFlag (cf.country) ++ " " ++
        joinComma (filterBoolean [cf.city, some "Japan"]))) = _
    rw [hc, hci]
    rfl

/-- An event with no headers, no transport IP, no platform properties and
no attached link. -/
def eventEmpty : H3Event :=
  { headers := fun _ => none, requestIP := none, cf := none, link := none }

/-- Link metadata with every field absent. -/
def linkEmpty : LogLinkContext := ⟨none, none, none⟩

/-- A request context with everything absent. -/
def requestEmpty : RequestLogContext :=
  ⟨none, none, none, none, ⟨none, none, none, none, none⟩, ""⟩

/-- Connection properties with country "JP" and region "Tokyo" only. -/
def cfJP : CfProps := ⟨some "JP", some "Tokyo", none, none, none, none, none, none⟩

/-- A request context whose geolocation is `cfJP`. -/
def requestJP : RequestLogContext :=
  ⟨some cfJP, none, none, none, ⟨none, none, none, none, none⟩, ""⟩

theorem composite_region_city_witness :
    lookupField (createRequestLogs platformW eventEmpty linkEmpty requestJP "access") "region"
      = some (JSVal.str (platformW.getFlag (some "JP") ++ " " ++ "Tokyo,Japan"))
  ∧ lookupField (createRequestLogs platformW eventEmpty linkEmpty requestJP "access") "city"
      = some (JSVal.str (platformW.getFlag (some "JP") ++ " " ++ "Japan")) :=
  composite_region_city platformW eventEmpty linkEmpty requestJP cfJP "access"
    rfl rfl rfl rfl (by decide)

/-- **C10.** The assembled `region` and `city` slots are never the empty
string: whatever the geolocation inputs, the slot carries the flag glyph
and a space, and when country, region and city are all absent it still
holds the flag glyph and the resolved fallback country name — so the
encoder's absent-field default never applies to these two slots. -/
theorem region_city_slots_nonempty (p : Platform) (e : H3Event) (link : LogLinkContext)
    (request : RequestLogContext) (et : String) :
    (∀ s, lookupField (createRequestLogs p e link request et) "region" = some (JSVal.str s) →
        ¬ s = "")
  ∧ (∀ s, lookupField (createRequestLogs p e link request et) "city" = some (JSVal.str s) →
        ¬ s = "")
  ∧ (request.cf = none → ¬ p.regionNamesOf "WD" = "" →
      lookupField (createRequestLogs p e link request et) "region"
        = some (JSVal.str (p.getFlag none ++ " " ++ p.regionNamesOf "WD"))
      ∧ lookupField (createRequestLogs p e link request et) "city"
        = some (JSVal.str (p.getFlag none ++ " " ++ p.regionNamesOf "WD"))) := by
  have hvr : lookupField (createRequestLogs p e link request et) "region"
      = some (JSVal.str (p.getFlag (request.cf.bind CfProps.country) ++ " " ++
          joinComma (filterBoolean
            [request.cf.bind CfProps.region, some (countryName p request.cf)]))) := rfl
  have hvc : lookupField (createRequestLogs p e link request et) "city"
      = some (JSVal.str (p.getFlag (request.cf.bind CfProps.country) ++ " " ++
          joinComma (filterBoolean
            [request.cf.bind CfProps.city, some (countryName p request.cf)]))) := rfl
  have h1 : (" " : String).length = 1 := rfl
  have h0 : ("" : String).length = 0 := rfl
  have hlen : ∀ a b : String, ¬ a ++ " " ++ b = "" := by
    intro a b h
    have hlg := congrArg String.length h
    rw [String.length_append, String.length_append, h1, h0] at hlg
    omega
  refine ⟨?_, ?_, ?_⟩
  · intro s hs
    rw [hvr] at hs
    simp only [Option.some.injEq, JSVal.str.injEq] at hs
    exact hs ▸ hlen _ _
  · intro s hs
    rw [hvc] at hs
    simp only [Option.some.injEq, JSVal.str.injEq] at hs
    exact hs ▸ hlen _ _
  · intro hcf hw
    have hcn : countryName p request.cf = p.regionNamesOf "WD" := by
      rw [countryName, hcf]; rfl
    have hfb : filterBoolean [none, some (p.regionNamesOf "WD")] = [p.regionNamesOf "WD"] := by
      simp [filterBoolean, hw]
    constructor
    · rw [hvr, hcn, hcf]
      show some (JSVal.str (p.getFlag none ++ " " ++
          joinComma (filterBoolean [none, some (p.regionNamesOf "WD")]))) = _
      rw [hfb]
      rfl
    · rw [hvc, hcn, hcf]
      show some (JSVal.str (p.getFlag none ++ " " ++
          joinComma (filterBoolean [none, some (p.regionNamesOf "WD")]))) = _
      rw [hfb]
      rfl

theorem region_city_slots_nonempty_witness :
    ¬ ("F Worldwide" : String) = ""
  ∧ lookupField (createRequestLogs platformW eventEmpty linkEmpty requestEmpty "access") "region"
      = some (JSVal.str (platformW.getFlag none ++ " " ++ platformW.regionNamesOf "WD")) :=
  ⟨(region_city_slots_nonempty platformW eventEmpty linkEmpty requestEmpty "access").1
      "F Worldwide" (by decide),
   ((region_city_slots_nonempty platformW eventEmpty linkEmpty requestEmpty "access").2.2
      rfl (by decide)).1⟩

/-- **C3.** If the bot verdict is true and the bot-access-log suppression
flag is set, `useAccessLog` issues zero sink writes and only a local
diagnostic trace; if the suppression flag is unset, `useAccessLog` issues
exactly one sink write in a production runtime; and `useCreateLog` issues
exactly one sink write in a production runtime regardless of the bot
verdict. -/
theorem bot_suppression (p : Platform) (env : RuntimeEnv) (e : H3Event)
    (link : LogLinkContext) :
    (isBot (getRequestLogContext p e) = true → env.disableBotAccessLog = true →
        (useAccessLog p env e).writes = [] ∧ (useAccessLog p env e).consoleTraces = 1)
  ∧ (env.disableBotAccessLog = false → env.production = true →
        (useAccessLog p env e).writes.length = 1)
  ∧ (env.production = true → (useCreateLog p env e link).writes.length = 1) := by
  refine ⟨?_, ?_, ?_⟩
  · intro hb hd
    simp [useAccessLog, hb, hd]
  · intro hd hp
    simp [useAccessLog, hd, hp]
  · intro hp
    simp [useCreateLog, hp]

/-- A platform whose user-agent classifier reports a crawler, making the
bot verdict true for any request. -/
def platformCrawler : Platform :=
  { regionNamesOf := regionNamesW
    getFlag := fun _ => "F"
    jsNumber := fun _ => 0
    parseURLHost := fun _ => none
    parseAcceptLanguage := fun _ => []
    uaParse := fun _ => ⟨none, none, some "crawler", none, none⟩ }

theorem bot_suppression_witness :
    ((useAccessLog platformCrawler ⟨true, true⟩ eventEmpty).writes = []
      ∧ (useAccessLog platformCrawler ⟨true, true⟩ eventEmpty).consoleTraces = 1)
  ∧ (useAccessLog platformCrawler ⟨false, true⟩ eventEmpty).writes.length = 1
  ∧ (useCreateLog platformCrawler ⟨true, true⟩ eventEmpty linkEmpty).writes.length = 1 :=
  ⟨(bot_suppression platformCrawler ⟨true, true⟩ eventEmpty linkEmpty).1 (by decide) rfl,
   (bot_suppression platformCrawler ⟨false, true⟩ eventEmpty linkEmpty).2.1 rfl rfl,
   (bot_suppression platformCrawler ⟨true, true⟩ eventEmpty linkEmpty).2.2 rfl⟩

/-- JS-style substring test (`String.prototype.includes`): does `pat`
occur contiguously inside `s`? -/
def strContainsSub (pat s : String) : Bool :=
  (s.toList.tails).any (fun t => pat.toList.isPrefixOf t)

/-- The bot verdict as the specification words it: platform signal, or
crawler/fetcher classification, or the browser name containing "spider"
or "bot" as a case-insensitive substring.  Stated from the spec's words,
to compare against the source's `isBot`. -/
def claimedBotVerdict (ctx : RequestLogContext) : Bool :=
  (((ctx.cf.bind CfProps.botManagement).map BotManagement.verifiedBot).getD false)
  || (["crawler", "fetcher"] : List String).contains (ctx.uaInfo.browserType.getD "")
  || strContainsSub "spider" ((ctx.uaInfo.browserName.map lowerStr).getD "")
  || strContainsSub "bot" ((ctx.uaInfo.browserName.map lowerStr).getD "")

/-- A request context whose parsed browser name is "SomeBot" with no
classification and no platform bot signal: a plausible parse of an
unlisted bot user agent. -/
def someBotCtx : RequestLogContext :=
  ⟨none, none, none, none, ⟨none, some "SomeBot", none, none, none⟩, "SomeBot/1.0"⟩

/-- **C4 (counterexample).** The bot verdict is NOT the substring test the
claim states: on `someBotCtx` the claimed verdict (name contains "bot")
is true while the source's verdict (`['spider','bot'].includes(...)`, an
exact membership test) is false. -/
theorem bot_verdict_substring_counterexample :
    ¬ (∀ ctx : RequestLogContext, isBot ctx = claimedBotVerdict ctx) :=
  fun h => absurd (h someBotCtx) (by decide)

/-- `(o.getD false) = true` exactly when the optional boolean is a present
`true` (JS truthiness of `a?.b?.c`). -/
theorem optBool_getD_false_eq_true (o : Option Bool) : o.getD false = true ↔ o = some true := by
  cases o <;> simp

/-- **C4 (amended).** The bot verdict is true iff the platform's
verified-bot signal is set, or the parsed browser classification is
"crawler" or "fetcher", or the lowercased parsed browser name is exactly
"spider" or exactly "bot". -/
theorem bot_verdict_amended (ctx : RequestLogContext) :
    isBot ctx = true ↔
      ((ctx.cf.bind CfProps.botManagement).map BotManagement.verifiedBot = some true
       ∨ ctx.uaInfo.browserType.getD "" = "crawler"
       ∨ ctx.uaInfo.browserType.getD "" = "fetcher"
       ∨ (ctx.uaInfo.browserName.map lowerStr).getD "" = "spider"
       ∨ (ctx.uaInfo.browserName.map lowerStr).getD "" = "bot") := by
  simp only [isBot, Bool.or_eq_true, optBool_getD_false_eq_true, List.contains,
    List.elem_iff, List.mem_cons, List.mem_singleton, List.not_mem_nil, or_false]
  tauto

/-- **C8.** Request-context extraction never aborts: it is a total
function of the event, and every missing input degrades to an absent or
empty field — absent User-Agent gives the empty UA string, absent
Referer gives an absent referrer host, absent Accept-Language gives an
absent language, an all-absent IP chain gives an absent IP, and absent
platform properties stay absent.  The two hypotheses are the
specification's contracts for the external URL and Accept-Language
parsers on absent/empty input. -/
theorem extraction_degrades (p : Platform) (e : H3Event)
    (hpu : p.parseURLHost none = none)
    (hpa : p.parseAcceptLanguage "" = []) :
    (e.headers "user-agent" = none → (getRequestLogContext p e).userAgent = "")
  ∧ (e.headers "referer" = none → (getRequestLogContext p e).referer = none)
  ∧ (e.headers "accept-language" = none → (getRequestLogContext p e).language = none)
  ∧ (e.headers "cf-connecting-ip" = none → e.headers "x-real-ip" = none →
      e.requestIP = none → (getRequestLogContext p e).ip = none)
  ∧ (e.cf = none → (getRequestLogContext p e).cf = none) := by
  refine ⟨?_, ?_, ?_, ?_, ?_⟩
  · intro h; simp [getRequestLogContext, jsOr, h]
  · intro h; simp [getRequestLogContext, h, hpu]
  · intro h; simp [getRequestLogContext, jsOr, h, hpa]
  · intro h1 h2 h3; simp [getRequestLogContext, jsOrOpt, h1, h2, h3]
  · intro h; simp [getRequestLogContext, h]

theorem extraction_degrades_witness :
    (getRequestLogContext platformW eventEmpty).userAgent = ""
  ∧ (getRequestLogContext platformW eventEmpty).referer = none
  ∧ (getRequestLogContext platformW eventEmpty).language = none
  ∧ (getRequestLogContext platformW eventEmpty).ip = none
  ∧ (getRequestLogContext platformW eventEmpty).cf = none :=
  ⟨(extraction_degrades platformW eventEmpty rfl rfl).1 rfl,
   (extraction_degrades platformW eventEmpty rfl rfl).2.1 rfl,
   (extraction_degrades platformW eventEmpty rfl rfl).2.2.1 rfl,
   (extraction_degrades platformW eventEmpty rfl rfl).2.2.2.1 rfl rfl rfl,
   (extraction_degrades platformW eventEmpty rfl rfl).2.2.2.2 rfl⟩
